import Mathlib

/-!
Verification of the literature-review pipeline in `main_graph.py`.

The five LangGraph nodes (`search_academic_papers_node`,
`download_and_parse_pdfs_node`, `summarize_papers_node`,
`compare_analyses_node`, `generate_report_node`) are embedded as pure Lean
functions over an explicit `ResearchState` record.  External collaborators
(the Semantic Scholar and arXiv search providers, the HTTP fetch / PDF
extraction pair, the Gemini language model, and the docx renderer) are
modelled as oracle parameters: each node takes a value describing the
collaborator's behaviour for that call and returns the updated state,
together with instrumentation (provider request sizes, per-item failure
counts, file-system event traces, language-model call counts) needed to
state the frame and interaction properties.

Python string primitives used by the source (`str.split`, `str.replace`,
`str.strip`, `str.find`, slicing) are implemented on `List Char` with a
fuel argument so that every definition reduces in the kernel.
-/

/-! ### Python string primitives -/

/-- Python whitespace stripped by `str.strip()`. -/
def isPyWs (c : Char) : Bool :=
  c = ' ' || c = '\t' || c = '\n' || c = '\r' || c = '\x0b' || c = '\x0c'

/-- `str.strip()`: remove leading and trailing whitespace. -/
def pyStrip (l : List Char) : List Char :=
  ((l.dropWhile isPyWs).reverse.dropWhile isPyWs).reverse

/-- Fueled worker for Python `str.split(sep)` (leftmost, non-overlapping
occurrences).  The fuel is an upper bound on the length of the string, so
`splitFuel sep s.length s` computes the true split. -/
def splitFuel (sep : List Char) : Nat → List Char → List (List Char)
  | _, [] => [[]]
  | 0, s => [s]
  | n + 1, c :: cs =>
    if sep.isPrefixOf (c :: cs) && !sep.isEmpty then
      [] :: splitFuel sep n ((c :: cs).drop sep.length)
    else
      match splitFuel sep n cs with
      | [] => [[c]]
      | t :: ts => (c :: t) :: ts

/-- Python `s.split(sep)` for a non-empty separator. -/
def pySplit (sep s : List Char) : List (List Char) :=
  splitFuel sep s.length s

/-- Fueled worker for Python `str.replace(sep, repl)` (all occurrences,
leftmost first). -/
def replaceFuel (sep repl : List Char) : Nat → List Char → List Char
  | _, [] => []
  | 0, s => s
  | n + 1, c :: cs =>
    if sep.isPrefixOf (c :: cs) && !sep.isEmpty then
      repl ++ replaceFuel sep repl n ((c :: cs).drop sep.length)
    else
      c :: replaceFuel sep repl n cs

/-- Python `s.replace(sep, repl)` for a non-empty separator. -/
def pyReplace (sep repl s : List Char) : List Char :=
  replaceFuel sep repl s.length s

/-- Python `s.find(needle)`: index of the first occurrence, `none` when the
needle does not occur (Python returns `-1`). -/
def findSub (needle : List Char) : List Char → Option Nat
  | [] => if needle.isEmpty then some 0 else none
  | c :: cs =>
    if needle.isPrefixOf (c :: cs) then some 0
    else (findSub needle cs).map (· + 1)

/-- String wrappers over the `List Char` primitives. -/
def pySplitS (sep s : String) : List String :=
  (pySplit sep.data s.data).map String.mk

def pyReplaceS (sep repl s : String) : String :=
  ⟨pyReplace sep.data repl.data s.data⟩

def pyStripS (s : String) : String :=
  ⟨pyStrip s.data⟩

def pyFindS (needle s : String) : Option Nat :=
  findSub needle.data s.data

/-- Python slice `s[a:b]` for non-negative indices (empty when `b ≤ a`). -/
def pySliceS (s : String) (a b : Nat) : String :=
  ⟨(s.data.drop a).take (b - a)⟩

/-- Python slice `s[a:]`. -/
def pyDropS (s : String) (a : Nat) : String :=
  ⟨s.data.drop a⟩

/-- Python truthiness of an optional string (`None` and `""` are falsy). -/
def truthyS (o : Option String) : Bool :=
  !(o.getD "").isEmpty

/-- `title.lower()[:50]`, the normalized title prefix used for cross-source
deduplication. -/
def lower50 (t : String) : List Char :=
  ((t.data.map Char.toLower).take 50)

/-! ### Configuration constants (from the top of `main_graph.py`) -/

def GEMINI_API_KEY : String := ""
def SEMANTIC_SCHOLAR_API_KEY : String := ""
def PDF_DOWNLOAD_DIR : String := "downloaded_pdfs"
def OUTPUT_REPORT_NAME : String := "AI_Generated_Research_Report_Reverted_Enhanced.docx"

/-- `os.path.join` for the POSIX paths used here. -/
def osPathJoin (a b : String) : String :=
  if a = "" then b
  else if a.endsWith "/" then a ++ b
  else a ++ "/" ++ b

/-! ### Data model (`ResearchState` and the per-stage item shapes) -/

/-- A discovered paper: the dict `{paperId, title, pdf_url}` appended by the
search node (`pdf_url` optional so the downstream `paper.get('pdf_url')`
access is modelled faithfully for arbitrary inputs). -/
structure PaperRef where
  paperId : String
  title : String
  pdf_url : Option String
deriving DecidableEq

/-- An extracted paper: the dict `{paperId, title, text}` appended by the
download/parse node. -/
structure ParsedPaper where
  paperId : String
  title : String
  text : String
deriving DecidableEq

/-- A per-paper analysis: the dict appended by the summarizer node. -/
structure Analysis where
  title : String
  pdf_url : String
  summary : String
  methodology : String
  key_findings : String
deriving DecidableEq

/-- The LangGraph `ResearchState`.  Every field is optional: an unset field
models a key that is absent from the state dict, and each node's partial
return dict is modelled by updating exactly the keys the node returns. -/
structure ResearchState where
  topic : Option String
  paper_limit : Option Nat
  papers_to_process : Option (List PaperRef)
  parsed_papers : Option (List ParsedPaper)
  all_analyses : Option (List Analysis)
  topic_overview : Option String
  comparison_result : Option String
  report_path : Option String
  error : Option String
deriving DecidableEq

/-- Initial state of a run: only `topic` / `paper_limit` populated. -/
def initState (topic : Option String) (paper_limit : Option Nat) : ResearchState :=
  ⟨topic, paper_limit, none, none, none, none, none, none, none⟩

/-! ### Collaborator oracle shapes -/

/-- One Semantic Scholar result row (the fields the node reads). -/
structure SSEntry where
  paperId : Option String
  title : Option String
  /-- The `openAccessPdf.url` value when the provider supplies a direct
  open-access link (absence of the dict and absence of the url are merged). -/
  openAccessPdf : Option String
  /-- The `externalIds.ArXiv` identifier, when present. -/
  arxivId : Option String
deriving DecidableEq

/-- One arXiv client result (the fields the node reads). -/
structure ArxivEntry where
  entry_id : String
  title : String
  pdf_url : Option String
deriving DecidableEq

/-- Outcome of fetching, writing and extracting one discovered item:
either the fetch/open fails before a file exists, or an exception is raised
after the file was written, or extraction completes with the concatenated
page text (possibly empty). -/
inductive AcqOutcome where
  | fetchFail
  | failAfterWrite
  | extracted (text : String)
deriving DecidableEq

/-- Outcome of one `generate_content` call in the summarizer:
a response with parts (`text`), a content-safety block, an empty response,
or an exception raised by the call. -/
inductive GenResult where
  | text (s : String)
  | blocked (reason : String)
  | empty
  | exn (msg : String)
deriving DecidableEq

/-- Outcome of the comparator's single `generate_content` call.
`exnBefore` is an exception raised before the call is issued (e.g. during
`genai.configure`), `exnAfter` an exception raised by the call itself;
both land in the same `except` block of the source. -/
inductive CmpResult where
  | text (s : String)
  | blocked (reason : String)
  | empty
  | exnBefore (msg : String)
  | exnAfter (msg : String)
deriving DecidableEq

/-- File-system events observed during acquisition (transient pdf files). -/
inductive FSEv where
  | create (path : String)
  | remove (path : String)
deriving DecidableEq

/-! ### Stage 1: `search_academic_papers_node` -/

/-- Resolve a document link for one Semantic Scholar candidate: a direct
open-access link if supplied, else a link constructed from an arXiv id,
else none (the candidate is discarded). -/
def ssResolveUrl (e : SSEntry) : Option String :=
  if truthyS e.openAccessPdf then e.openAccessPdf
  else if truthyS e.arxivId then
    some ("https://arxiv.org/pdf/" ++ e.arxivId.getD "" ++ ".pdf")
  else none

/-- The Semantic Scholar collection loop: append a candidate when it has a
truthy id, title and resolved link, the target count is not yet reached,
and no already-collected item carries the same `paperId`. -/
def ssCollect (limit : Nat) : List SSEntry → List PaperRef → List PaperRef
  | [], acc => acc
  | e :: es, acc =>
    let url := ssResolveUrl e
    let dup := acc.any fun p => !p.paperId.isEmpty && p.paperId == e.paperId.getD ""
    if truthyS e.paperId && truthyS e.title && url.isSome
        && decide (acc.length < limit) && !dup then
      ssCollect limit es (acc ++ [⟨e.paperId.getD "", e.title.getD "", url⟩])
    else
      ssCollect limit es acc

/-- `result.entry_id.split('/')[-1]` for an arXiv result. -/
def arxivIdOf (entry_id : String) : String :=
  (pySplitS "/" entry_id).getLastD ""

/-- The `PaperRef` built from one arXiv result. -/
def mkArxivPaper (r : ArxivEntry) : PaperRef :=
  ⟨"arXiv:" ++ arxivIdOf r.entry_id, r.title, r.pdf_url⟩

/-- Case-insensitive 50-character title-prefix duplicate test against the
already-collected items. -/
def arxivIsDup (acc : List PaperRef) (title : String) : Bool :=
  acc.any fun p => lower50 p.title == lower50 title

/-- The arXiv collection loop: break once `limit` items are collected;
append a result when it has a pdf link and is not a title-prefix duplicate. -/
def arxivLoop (limit : Nat) : List ArxivEntry → List PaperRef → List PaperRef
  | [], acc => acc
  | r :: rs, acc =>
    if limit ≤ acc.length then acc
    else if truthyS r.pdf_url && !arxivIsDup acc r.title then
      arxivLoop limit rs (acc ++ [mkArxivPaper r])
    else
      arxivLoop limit rs acc

/-- The size of the secondary-provider request issued when the primary
provider yielded `found < limit` linked items (`needed * 2`). -/
def secondaryRequestSize (limit found : Nat) : Nat :=
  (limit - found) * 2

/-- `search_academic_papers_node`.  `ssRes` is the primary provider's
response (`none` models an exception anywhere in the Semantic Scholar
phase, which the node catches); `arxivRes n` is the secondary provider's
response to a query with `max_results = n` (`none` models a caught
exception).  Besides the updated state, the node returns the list of
secondary-provider request sizes it issued. -/
def search_academic_papers_node (s : ResearchState)
    (ssRes : Option (List SSEntry)) (arxivRes : Nat → Option (List ArxivEntry)) :
    ResearchState × List Nat :=
  if !truthyS s.topic then
    ({ s with papers_to_process := some [], error := some "Topic missing" }, [])
  else
    let limit := s.paper_limit.getD 3
    let primary :=
      if SEMANTIC_SCHOLAR_API_KEY = "YOUR_SEMANTIC_SCHOLAR_API_KEY" then []
      else match ssRes with
        | none => []
        | some es => ssCollect limit es []
    let collected :=
      if primary.length < limit then
        match arxivRes (secondaryRequestSize limit primary.length) with
        | none => primary
        | some rs => arxivLoop limit rs primary
      else primary
    let reqs :=
      if primary.length < limit then [secondaryRequestSize limit primary.length]
      else []
    if collected = [] then
      ({ s with papers_to_process := some [],
                error := some "No papers with PDF links found" }, reqs)
    else
      ({ s with papers_to_process := some collected, error := none }, reqs)

/-! ### Stage 2: `download_and_parse_pdfs_node` -/

/-- The transient pdf path for one discovered item:
`os.path.join(PDF_DOWNLOAD_DIR, safe_title + "_" + paper_id[:8].replace(':','_') + ".pdf")`. -/
def pdfFilepath (p : PaperRef) : String :=
  let safeTitle := String.mk ((p.title.data.take 50).map fun c =>
    if c.isAlphanum then c else '_')
  let idPart := String.mk ((p.paperId.data.take 8).map fun c =>
    if c = ':' then '_' else c)
  osPathJoin PDF_DOWNLOAD_DIR (safeTitle ++ "_" ++ idPart ++ ".pdf")

/-- The per-item acquisition loop.  `acq i` is the outcome for the item at
overall position `i`.  Returns the parsed papers, the failure count, and
the file-system event trace, in processing order. -/
def downloadLoop (acq : Nat → AcqOutcome) :
    Nat → List PaperRef → List ParsedPaper × Nat × List FSEv
  | _, [] => ([], 0, [])
  | i, p :: ps =>
    let (rest, cnt, tr) := downloadLoop acq (i + 1) ps
    if !truthyS p.pdf_url then
      -- missing pdf url: skipped and counted, no file ever exists
      (rest, cnt + 1, tr)
    else
      let f := pdfFilepath p
      match acq i with
      | .fetchFail =>
        -- exception before the file was written: nothing to clean up
        (rest, cnt + 1, tr)
      | .failAfterWrite =>
        -- exception after the file was written: the except-branch cleanup
        -- removes the existing file
        (rest, cnt + 1, .create f :: .remove f :: tr)
      | .extracted t =>
        -- extraction completed; the file is deleted on this path too,
        -- and the item contributes only when the text is non-empty
        if !t.isEmpty then
          (⟨p.paperId, p.title, t⟩ :: rest, cnt, .create f :: .remove f :: tr)
        else
          (rest, cnt + 1, .create f :: .remove f :: tr)

/-- `download_and_parse_pdfs_node`.  Besides the updated state, returns the
failure count and the transient-file event trace. -/
def download_and_parse_pdfs_node (s : ResearchState) (acq : Nat → AcqOutcome) :
    ResearchState × Nat × List FSEv :=
  let papers := s.papers_to_process.getD []
  match papers with
  | [] =>
    match s.error with
    | some e => ({ s with parsed_papers := some [], error := some e }, 0, [])
    | none =>
      ({ s with parsed_papers := some [],
                error := some "Search Agent found no processable papers." }, 0, [])
  | _ :: _ =>
    let (parsed, cnt, tr) := downloadLoop acq 0 papers
    let err :=
      if parsed = [] && s.error = none then
        some "Failed to download or parse any valid PDFs."
      else s.error
    ({ s with parsed_papers := some parsed, error := err }, cnt, tr)

/-! ### Stage 3: `summarize_papers_node` -/

/-- The "basic parsing" of one summarizer response (lines 285-287 of the
source): split on the literal labels, strip, and remove the summary label. -/
def parseSummaryResponse (g : String) : String × String × String :=
  let summary := pyStripS (pyReplaceS "Summary:" "" ((pySplitS "Methodology:" g).headD ""))
  let methodology :=
    pyStripS ((pySplitS "Methodology:" ((pySplitS "Key Findings:" g).headD "")).getLastD "")
  let key_findings := pyStripS ((pySplitS "Key Findings:" g).getLastD "")
  (summary, methodology, key_findings)

/-- The per-paper summarization loop.  `llm i` is the model's response for
the paper at overall position `i`.  Returns the analyses and the failure
count. -/
def summarizeLoop (llm : Nat → GenResult) :
    Nat → List ParsedPaper → List Analysis × Nat
  | _, [] => ([], 0)
  | i, p :: ps =>
    let (rest, cnt) := summarizeLoop llm (i + 1) ps
    if p.text.isEmpty then
      (rest, cnt + 1)
    else
      match llm i with
      | .text g =>
        let (summary, methodology, key_findings) := parseSummaryResponse g
        -- the parsed-paper dict has no 'pdf_url' key, so .get defaults to "N/A"
        (⟨p.title, "N/A", summary, methodology, key_findings⟩ :: rest, cnt)
      | .blocked _ => (rest, cnt + 1)
      | .empty => (rest, cnt + 1)
      | .exn _ => (rest, cnt + 1)

/-- `summarize_papers_node`.  `config` is `none` when
`genai.configure`/`GenerativeModel` succeed, `some msg` when they raise. -/
def summarize_papers_node (s : ResearchState)
    (config : Option String) (llm : Nat → GenResult) : ResearchState :=
  let parsed := s.parsed_papers.getD []
  match parsed with
  | [] =>
    match s.error with
    | some e => { s with all_analyses := some [], error := some e }
    | none => { s with all_analyses := some [], error := some "Parsing step yielded no text." }
  | _ :: _ =>
    if GEMINI_API_KEY = "YOUR_GEMINI_API_KEY" then
      { s with error := some "Gemini API Key missing" }
    else
      match config with
      | some msg => { s with error := some ("Gemini configuration failed: " ++ msg) }
      | none =>
        let (analyses, _) := summarizeLoop llm 0 parsed
        let err :=
          if analyses = [] && s.error = none then
            some "Summarization failed for all parsed papers."
          else s.error
        { s with all_analyses := some analyses, error := err }

/-! ### Stage 4: `compare_analyses_node` -/

def overviewMarker : String := "Topic Overview:"
def comparisonMarker : String := "Detailed Comparative Analysis:"

def comparisonSkippedText : String :=
  "Comparison skipped: Only one paper was successfully analyzed."

/-- Parse the comparator response into the overview and comparison fields
(lines 379-395 of the source), given the number of analyses. -/
def parseOverviewComparison (g : String) (n : Nat) : String × String :=
  let cmpDefault := if n = 1 then comparisonSkippedText
                    else "Detailed comparison could not be generated."
  match pyFindS overviewMarker g, pyFindS comparisonMarker g with
  | some i, some j =>
    (pyStripS (pySliceS g (i + overviewMarker.length) j),
     pyStripS (pyDropS g (j + comparisonMarker.length)))
  | some i, none =>
    (pyStripS (pyDropS g (i + overviewMarker.length)),
     if 1 < n then "Could not parse detailed comparison section." else cmpDefault)
  | none, _ => (g, "Parsing failed.")

/-- `compare_analyses_node`.  Returns the updated state and the number of
`generate_content` calls issued (0 or 1). -/
def compare_analyses_node (s : ResearchState) (o : CmpResult) :
    ResearchState × Nat :=
  let analyses := s.all_analyses.getD []
  match analyses with
  | [] =>
    match s.error with
    | some e =>
      ({ s with topic_overview := some "", comparison_result := some "",
                error := some e }, 0)
    | none =>
      ({ s with topic_overview := some "N/A - No papers analyzed.",
                comparison_result := some "N/A - No papers analyzed.",
                error := some "No summaries available" }, 0)
  | _ :: _ =>
    if GEMINI_API_KEY = "YOUR_GEMINI_API_KEY" then
      ({ s with error := some "Gemini API Key missing" }, 0)
    else
      match o with
      | .exnBefore msg =>
        let t := "Comparison/Overview generation failed due to error: " ++ msg
        ({ s with topic_overview := some t, comparison_result := some t,
                  error := s.error }, 0)
      | .exnAfter msg =>
        let t := "Comparison/Overview generation failed due to error: " ++ msg
        ({ s with topic_overview := some t, comparison_result := some t,
                  error := s.error }, 1)
      | .blocked reason =>
        let t := "Gemini request blocked (" ++ reason ++ ")"
        ({ s with topic_overview := some t, comparison_result := some t,
                  error := s.error }, 1)
      | .empty =>
        ({ s with topic_overview := some "Overview failed: Empty response",
                  comparison_result := some "Comparison failed: Empty response",
                  error := s.error }, 1)
      | .text g =>
        let (ov, cm) := parseOverviewComparison g analyses.length
        -- reset the comparison text when only one paper was analyzed
        let cm := if analyses.length = 1 then comparisonSkippedText else cm
        ({ s with topic_overview := some ov, comparison_result := some cm,
                  error := s.error }, 1)

/-! ### Stage 5: `generate_report_node` -/

/-- `generate_report_node`.  `render` is `none` when the docx build and
save succeed, `some msg` when any of it raises; `cwd` is `os.getcwd()`. -/
def generate_report_node (s : ResearchState)
    (render : Option String) (cwd : String) : ResearchState :=
  let analyses := s.all_analyses.getD []
  match analyses with
  | [] =>
    match s.error with
    | none =>
      { s with report_path := none,
               error := some "Cannot generate report without successful summaries" }
    | some e => { s with report_path := none, error := some e }
  | _ :: _ =>
    match render with
    | some msg =>
      { s with report_path := none,
               error := some (s.error.getD ("Report generation failed: " ++ msg)) }
    | none =>
      { s with report_path := some (osPathJoin cwd OUTPUT_REPORT_NAME),
               error := s.error }

/-! ### The composed pipeline -/

/-- All collaborator behaviour for one pipeline run. -/
structure Oracles where
  ssRes : Option (List SSEntry)
  arxivRes : Nat → Option (List ArxivEntry)
  acq : Nat → AcqOutcome
  sumConfig : Option String
  sumLLM : Nat → GenResult
  cmp : CmpResult
  render : Option String
  cwd : String

/-- State after stage 1 (Discovery). -/
def stateAfterSearch (t : Option String) (l : Option Nat) (o : Oracles) : ResearchState :=
  (search_academic_papers_node (initState t l) o.ssRes o.arxivRes).1

/-- State after stage 2 (Acquisition). -/
def stateAfterDownload (t : Option String) (l : Option Nat) (o : Oracles) : ResearchState :=
  (download_and_parse_pdfs_node (stateAfterSearch t l o) o.acq).1

/-- State after stage 3 (Analysis). -/
def stateAfterSummarize (t : Option String) (l : Option Nat) (o : Oracles) : ResearchState :=
  summarize_papers_node (stateAfterDownload t l o) o.sumConfig o.sumLLM

/-- State after stage 4 (Synthesis). -/
def stateAfterCompare (t : Option String) (l : Option Nat) (o : Oracles) : ResearchState :=
  (compare_analyses_node (stateAfterSummarize t l o) o.cmp).1

/-- State after stage 5 (Assembly): the final state of the run. -/
def stateAfterReport (t : Option String) (l : Option Nat) (o : Oracles) : ResearchState :=
  generate_report_node (stateAfterCompare t l o) o.render o.cwd

/-! ### Auxiliary predicates used by the theorems -/

/-- A file-system trace in which every created file is removed immediately
afterwards: the transient artifact's lifetime is contained in its own
item's processing, so no file outlives its item. -/
inductive ScopedTrace : List FSEv → Prop where
  | nil : ScopedTrace []
  | pair (f : String) (t : List FSEv) :
      ScopedTrace t → ScopedTrace (FSEv.create f :: FSEv.remove f :: t)

/-- `sep` occurs nowhere in `l` (as a contiguous sublist). -/
def NoOccIn (sep l : List Char) : Prop :=
  ∀ i < l.length, ¬ sep.isPrefixOf (l.drop i)

/-- `sep` occurs nowhere in `t` strictly before position `k`. -/
def NoOccBefore (sep t : List Char) (k : Nat) : Prop :=
  ∀ i < k, ¬ sep.isPrefixOf (t.drop i)

instance (sep l : List Char) : Decidable (NoOccIn sep l) := by
  unfold NoOccIn; infer_instance

instance (sep t : List Char) (k : Nat) : Decidable (NoOccBefore sep t k) := by
  unfold NoOccBefore; infer_instance

/-- The item at overall position `i` fails during acquisition: its pdf url
is missing, its fetch raises, an exception is raised after the file was
written, or extraction yields empty text. -/
def itemFails (acq : Nat → AcqOutcome) (i : Nat) (p : PaperRef) : Prop :=
  truthyS p.pdf_url = false ∨ acq i = .fetchFail ∨ acq i = .failAfterWrite
    ∨ acq i = .extracted ""

instance (acq : Nat → AcqOutcome) (i : Nat) (p : PaperRef) :
    Decidable (itemFails acq i p) := by
  unfold itemFails; infer_instance

/-! ## Helper lemmas -/

theorem downloadLoop_ids_sublist (acq : Nat → AcqOutcome) (ps : List PaperRef) :
    ∀ i, (((downloadLoop acq i ps).1).map ParsedPaper.paperId).Sublist
      (ps.map PaperRef.paperId) := by
  induction ps with
  | nil => intro i; simp [downloadLoop]
  | cons p ps ih =>
    intro i
    have ih' := ih (i + 1)
    rcases h : downloadLoop acq (i + 1) ps with ⟨rest, cnt, tr⟩
    rw [h] at ih'
    simp only [downloadLoop, h]
    split
    · exact ih'.cons _
    · rcases hA : acq i with _ | _ | t
      · simp only [hA]; exact ih'.cons _
      · simp only [hA]; exact ih'.cons _
      · simp only [hA]
        split
        · exact ih'.cons₂ _
        · exact ih'.cons _

theorem downloadLoop_scoped (acq : Nat → AcqOutcome) (ps : List PaperRef) :
    ∀ i, ScopedTrace (downloadLoop acq i ps).2.2 := by
  induction ps with
  | nil => intro i; simpa [downloadLoop] using ScopedTrace.nil
  | cons p ps ih =>
    intro i
    have ih' := ih (i + 1)
    rcases h : downloadLoop acq (i + 1) ps with ⟨rest, cnt, tr⟩
    rw [h] at ih'
    simp only [downloadLoop, h]
    split
    · exact ih'
    · rcases hA : acq i with _ | _ | t
      · simp only [hA]; exact ih'
      · simp only [hA]; exact ih'.pair _ _
      · simp only [hA]
        split
        · exact ih'.pair _ _
        · exact ih'.pair _ _

/-! ## Claim theorems -/

/-- Claim C2: for every run, the Acquisition output `parsed_papers` is a
subset of the Discovery output `papers_to_process` by identifier, its items
appear in the same relative order as discovered (the identifier list is a
sublist of the discovered identifier list), and no item with an identifier
outside the discovered list is ever added. -/
theorem acquisition_subset_of_discovery (s : ResearchState) (acq : Nat → AcqOutcome) :
    ((((download_and_parse_pdfs_node s acq).1.parsed_papers.getD []).map
        ParsedPaper.paperId).Sublist
      ((s.papers_to_process.getD []).map PaperRef.paperId)) ∧
    (∀ q ∈ (download_and_parse_pdfs_node s acq).1.parsed_papers.getD [],
      q.paperId ∈ (s.papers_to_process.getD []).map PaperRef.paperId) := by
  have main : (((download_and_parse_pdfs_node s acq).1.parsed_papers.getD []).map
      ParsedPaper.paperId).Sublist
      ((s.papers_to_process.getD []).map PaperRef.paperId) := by
    unfold download_and_parse_pdfs_node
    cases hp : s.papers_to_process.getD [] with
    | nil =>
      cases s.error <;> simp
    | cons p ps =>
      rcases h : downloadLoop acq 0 (p :: ps) with ⟨parsed, cnt, tr⟩
      have := downloadLoop_ids_sublist acq (p :: ps) 0
      rw [h] at this
      simpa [h] using this
  refine ⟨main, fun q hq => ?_⟩
  exact main.subset (List.mem_map_of_mem ParsedPaper.paperId hq)

/-- Claim C9: for every item processed by Acquisition, the transient pdf
file written for that item is removed within that item's own processing,
on every exit path on which the file came to exist (successful extraction,
empty extraction, and failure after the file was written); the node's
file-system trace therefore consists of immediately-closed create/remove
pairs, so no transient file's lifetime extends into the next item. -/
theorem acquisition_transient_files_scoped (s : ResearchState) (acq : Nat → AcqOutcome) :
    ScopedTrace (download_and_parse_pdfs_node s acq).2.2 := by
  unfold download_and_parse_pdfs_node
  cases hp : s.papers_to_process.getD [] with
  | nil => cases s.error <;> exact ScopedTrace.nil
  | cons p ps =>
    rcases h : downloadLoop acq 0 (p :: ps) with ⟨parsed, cnt, tr⟩
    have := downloadLoop_scoped acq (p :: ps) 0
    rw [h] at this
    simpa [h] using this

/-- Claim C10: whenever Report Assembly succeeds, the returned report path
is the fixed value `os.getcwd()` joined with the constant report filename,
independent of topic, paper limit and analyses; hence any two successful
runs of the same process return the same artifact path. -/
theorem report_path_fixed (s : ResearchState) (cwd : String) :
    (s.all_analyses.getD [] ≠ [] →
      (generate_report_node s none cwd).report_path
        = some (osPathJoin cwd OUTPUT_REPORT_NAME)) ∧
    (∀ s' : ResearchState, s.all_analyses.getD [] ≠ [] →
      s'.all_analyses.getD [] ≠ [] →
      (generate_report_node s none cwd).report_path
        = (generate_report_node s' none cwd).report_path) := by
  have key : ∀ u : ResearchState, u.all_analyses.getD [] ≠ [] →
      (generate_report_node u none cwd).report_path
        = some (osPathJoin cwd OUTPUT_REPORT_NAME) := by
    intro u hu
    unfold generate_report_node
    cases h : u.all_analyses.getD [] with
    | nil => exact absurd h hu
    | cons a as => simp
  exact ⟨key s, fun s' h h' => (key s h).trans (key s' h').symm⟩

/-- Witness for C10 at a one-analysis state and cwd `/app`. -/
theorem report_path_fixed_witness :
    (generate_report_node
        ⟨some "t", some 3, none, none, some [⟨"T", "N/A", "s", "m", "k"⟩],
          some "ov", some "cmp", none, none⟩ none "/app").report_path
      = some (osPathJoin "/app" OUTPUT_REPORT_NAME) :=
  (report_path_fixed _ "/app").1 (by decide)
theorem downloadLoop_append (acq : Nat → AcqOutcome) (xs ys : List PaperRef) :
    ∀ i, (downloadLoop acq i (xs ++ ys)).1
        = (downloadLoop acq i xs).1 ++ (downloadLoop acq (i + xs.length) ys).1 ∧
      (downloadLoop acq i (xs ++ ys)).2.1
        = (downloadLoop acq i xs).2.1 + (downloadLoop acq (i + xs.length) ys).2.1 := by
  induction xs with
  | nil => intro i; simp [downloadLoop]
  | cons p xs ih =>
    intro i
    obtain ⟨e1, e2⟩ := ih (i + 1)
    simp only [List.cons_append, downloadLoop, List.length_cons]
    have hidx : i + (xs.length + 1) = i + 1 + xs.length := by omega
    rw [hidx]
    rcases h1 : downloadLoop acq (i + 1) (xs ++ ys) with ⟨r1, c1, t1⟩
    rcases h2 : downloadLoop acq (i + 1) xs with ⟨r2, c2, t2⟩
    rw [h1, h2] at e1 e2
    simp only [h1, h2]
    simp only [Prod.fst, Prod.snd] at e1 e2
    split
    · exact ⟨by simpa using e1, by simp; omega⟩
    · rcases hA : acq i with _ | _ | t
      · exact ⟨by simpa using e1, by simp; omega⟩
      · exact ⟨by simpa using e1, by simp; omega⟩
      · simp only [hA]
        cases ht : t.isEmpty with
        | true =>
          constructor
          · simpa [ht] using e1
          · simp [ht]; omega
        | false =>
          constructor
          · simp [ht, e1]
          · simp [ht]; omega

theorem downloadLoop_cons_fail (acq : Nat → AcqOutcome) (i : Nat) (p : PaperRef)
    (ys : List PaperRef) (h : itemFails acq i p) :
    (downloadLoop acq i (p :: ys)).1 = (downloadLoop acq (i + 1) ys).1 ∧
    (downloadLoop acq i (p :: ys)).2.1 = (downloadLoop acq (i + 1) ys).2.1 + 1 := by
  rcases h1 : downloadLoop acq (i + 1) ys with ⟨r, c, t⟩
  simp only [downloadLoop, h1]
  by_cases hu : truthyS p.pdf_url
  · rcases h with h | h | h | h
    · simp [hu] at h
    · simp [hu, h]
    · simp [hu, h]
    · simp [hu, h, show "".isEmpty = true from rfl]
  · simp [hu]

/-- Claim C3: Acquisition processes items in isolation.  A failing item
(missing url, fetch failure, write/extract exception, or empty text)
contributes nothing to the output and one unit to the failure count, while
every other item is processed exactly as it would have been without it; a
succeeding item always contributes its extracted entry; and when the
incoming error slot is empty and at least one item survives, no error is
recorded.  In particular, for 3 items where only item 2's fetch fails, the
output is exactly items 1 and 3 in order, with failure count 1 and no
error. -/
theorem acquisition_item_isolation :
    (∀ (acq : Nat → AcqOutcome) (xs ys : List PaperRef) (p : PaperRef),
      itemFails acq xs.length p →
      (downloadLoop acq 0 (xs ++ p :: ys)).1
          = (downloadLoop acq 0 xs).1 ++ (downloadLoop acq (xs.length + 1) ys).1 ∧
      (downloadLoop acq 0 (xs ++ p :: ys)).2.1
          = (downloadLoop acq 0 xs).2.1 + (downloadLoop acq (xs.length + 1) ys).2.1 + 1) ∧
    (∀ (acq : Nat → AcqOutcome) (xs ys : List PaperRef) (p : PaperRef) (t : String),
      truthyS p.pdf_url = true → acq xs.length = AcqOutcome.extracted t → t ≠ "" →
      (⟨p.paperId, p.title, t⟩ : ParsedPaper) ∈ (downloadLoop acq 0 (xs ++ p :: ys)).1) ∧
    (∀ (s : ResearchState) (acq : Nat → AcqOutcome), s.error = none →
      (download_and_parse_pdfs_node s acq).1.parsed_papers.getD [] ≠ [] →
      (download_and_parse_pdfs_node s acq).1.error = none) ∧
    ((fun r => ((r.1).parsed_papers, r.2.1, (r.1).error))
        (download_and_parse_pdfs_node
          ⟨some "t", some 3,
            some [⟨"id1", "T1", some "u1"⟩, ⟨"id2", "T2", some "u2"⟩,
              ⟨"id3", "T3", some "u3"⟩],
            none, none, none, none, none, none⟩
          (fun i => if i = 1 then AcqOutcome.fetchFail
                    else AcqOutcome.extracted ("t" ++ toString i)))
      = (some [⟨"id1", "T1", "t0"⟩, ⟨"id3", "T3", "t2"⟩], 1, none)) := by
  refine ⟨?_, ?_, ?_, by decide⟩
  · intro acq xs ys p h
    have hap := downloadLoop_append acq xs (p :: ys) 0
    have hcf := downloadLoop_cons_fail acq xs.length p ys h
    simp only [Nat.zero_add] at hap
    exact ⟨by rw [hap.1, hcf.1], by rw [hap.2, hcf.2]; omega⟩
  · intro acq xs ys p t hu hA ht
    have hap := downloadLoop_append acq xs (p :: ys) 0
    simp only [Nat.zero_add] at hap
    rw [hap.1]
    apply List.mem_append_right
    rcases h1 : downloadLoop acq (xs.length + 1) ys with ⟨r, c, tr⟩
    have ht' : t.isEmpty = false := by
      cases h : t.isEmpty
      · rfl
      · exact absurd ((String.isEmpty_iff t).mp h) ht
    simp [downloadLoop, h1, hu, hA, ht']
  · intro s acq hs
    unfold download_and_parse_pdfs_node
    cases hp : s.papers_to_process.getD [] with
    | nil => simp [hs]
    | cons p ps =>
      rcases h1 : downloadLoop acq 0 (p :: ps) with ⟨parsed, cnt, tr⟩
      simp only [h1]
      intro hne
      simp [hs] at hne ⊢
      simp [hne]

/-- Witness for C3, conjunct 1, at the 3-item scenario with item 2's fetch
failing. -/
theorem acquisition_item_isolation_witness :
    (downloadLoop
        (fun i => if i = 1 then AcqOutcome.fetchFail
                  else AcqOutcome.extracted ("t" ++ toString i)) 0
        ([⟨"id1", "T1", some "u1"⟩] ++ (⟨"id2", "T2", some "u2"⟩ : PaperRef)
          :: [⟨"id3", "T3", some "u3"⟩])).1
      = (downloadLoop
          (fun i => if i = 1 then AcqOutcome.fetchFail
                    else AcqOutcome.extracted ("t" ++ toString i)) 0
          [⟨"id1", "T1", some "u1"⟩]).1
        ++ (downloadLoop
            (fun i => if i = 1 then AcqOutcome.fetchFail
                      else AcqOutcome.extracted ("t" ++ toString i)) 2
            [⟨"id3", "T3", some "u3"⟩]).1 :=
  (acquisition_item_isolation.1 _ [⟨"id1", "T1", some "u1"⟩]
    [⟨"id3", "T3", some "u3"⟩] ⟨"id2", "T2", some "u2"⟩ (by decide)).1

theorem arxivLoop_stop (limit : Nat) (rs : List ArxivEntry) (acc : List PaperRef)
    (h : limit ≤ acc.length) : arxivLoop limit rs acc = acc := by
  cases rs with
  | nil => rfl
  | cons r rs => simp [arxivLoop, h]

theorem arxivLoop_length_le (limit : Nat) (rs : List ArxivEntry) :
    ∀ acc : List PaperRef, (arxivLoop limit rs acc).length ≤ max acc.length limit := by
  induction rs with
  | nil => intro acc; simp [arxivLoop]
  | cons r rs ih =>
    intro acc
    by_cases h : limit ≤ acc.length
    · simp [arxivLoop, h]
    · have hlt : acc.length < limit := by omega
      simp only [arxivLoop, if_neg h]
      split
      · have := ih (acc ++ [mkArxivPaper r])
        simp at this ⊢
        omega
      · have := ih acc
        omega

theorem arxivLoop_mem_of_mem (limit : Nat) (rs : List ArxivEntry) :
    ∀ (acc : List PaperRef) (q : PaperRef), q ∈ acc → q ∈ arxivLoop limit rs acc := by
  induction rs with
  | nil => intro acc q hq; simpa [arxivLoop] using hq
  | cons r rs ih =>
    intro acc q hq
    simp only [arxivLoop]
    split
    · exact hq
    · split
      · exact ih _ _ (List.mem_append_left _ hq)
      · exact ih _ _ hq

theorem arxivIsDup_mono (acc l : List PaperRef) (t : String)
    (h : arxivIsDup acc t = true) : arxivIsDup (acc ++ l) t = true := by
  unfold arxivIsDup at h ⊢
  simp only [List.any_append, h, Bool.true_or]

theorem arxivIsDup_congr (acc : List PaperRef) (t t' : String)
    (h : lower50 t = lower50 t') : arxivIsDup acc t = arxivIsDup acc t' := by
  unfold arxivIsDup
  rw [h]

theorem arxivLoop_dup_reject (limit : Nat) (rs : List ArxivEntry) :
    ∀ (acc : List PaperRef) (t : String), arxivIsDup acc t = true →
      ∀ q ∈ arxivLoop limit rs acc, q ∉ acc → lower50 q.title ≠ lower50 t := by
  induction rs with
  | nil =>
    intro acc t _ q hq hqn
    simp [arxivLoop] at hq
    exact absurd hq hqn
  | cons r rs ih =>
    intro acc t hdup q hq hqn
    simp only [arxivLoop] at hq
    by_cases hstop : limit ≤ acc.length
    · rw [if_pos hstop] at hq
      exact absurd hq hqn
    · rw [if_neg hstop] at hq
      by_cases hacc : (truthyS r.pdf_url && !arxivIsDup acc r.title) = true
      · rw [if_pos hacc] at hq
        by_cases hq' : q ∈ acc ++ [mkArxivPaper r]
        · have hqr : q = mkArxivPaper r := by
            rcases List.mem_append.mp hq' with h | h
            · exact absurd h hqn
            · simpa using h
          intro hcontra
          have hrt : lower50 r.title = lower50 t := by
            rw [hqr] at hcontra
            exact hcontra
          have : arxivIsDup acc r.title = true := by
            rw [arxivIsDup_congr acc r.title t hrt]
            exact hdup
          simp [this] at hacc
        · exact ih (acc ++ [mkArxivPaper r]) t (arxivIsDup_mono acc _ t hdup) q hq hq'
      · rw [if_neg hacc] at hq
        exact ih acc t hdup q hq hqn

theorem arxivLoop_accept (limit : Nat) (r : ArxivEntry) (rs : List ArxivEntry)
    (acc : List PaperRef) (hlen : acc.length < limit)
    (hurl : truthyS r.pdf_url = true) (hdup : arxivIsDup acc r.title = false) :
    mkArxivPaper r ∈ arxivLoop limit (r :: rs) acc := by
  simp only [arxivLoop, if_neg (by omega : ¬ limit ≤ acc.length), hurl, hdup]
  simp only [Bool.not_false, Bool.and_self, if_pos rfl]
  exact arxivLoop_mem_of_mem limit rs _ _ (by simp)

/-- Claim C8: when the primary provider yields fewer than `paper_limit`
linked items, Discovery queries the secondary provider for
`(paper_limit - found) * 2` more candidates; collection stops once
`paper_limit` items are accumulated (a full accumulator is returned
unchanged and the result never exceeds the limit); a secondary candidate
with a document link is accepted exactly when its case-insensitive
50-character title prefix matches no already-collected item: a non-duplicate
is added, while no item whose normalized prefix equals an already-collected
prefix is ever added.  In the spec scenario (2 linked primary items,
`paper_limit = 3`) the secondary provider is asked for 2 ≥ 2 results. -/
theorem discovery_secondary_provider :
    (∀ (s : ResearchState) (es : List SSEntry)
        (arxivRes : Nat → Option (List ArxivEntry)),
      truthyS s.topic = true →
      (ssCollect (s.paper_limit.getD 3) es []).length < s.paper_limit.getD 3 →
      (search_academic_papers_node s (some es) arxivRes).2
        = [secondaryRequestSize (s.paper_limit.getD 3)
            (ssCollect (s.paper_limit.getD 3) es []).length]) ∧
    (∀ (limit : Nat) (rs : List ArxivEntry) (acc : List PaperRef),
      limit ≤ acc.length → arxivLoop limit rs acc = acc) ∧
    (∀ (limit : Nat) (rs : List ArxivEntry) (acc : List PaperRef),
      (arxivLoop limit rs acc).length ≤ max acc.length limit) ∧
    (∀ (limit : Nat) (r : ArxivEntry) (rs : List ArxivEntry) (acc : List PaperRef),
      acc.length < limit → truthyS r.pdf_url = true →
      arxivIsDup acc r.title = false →
      mkArxivPaper r ∈ arxivLoop limit (r :: rs) acc) ∧
    (∀ (limit : Nat) (rs : List ArxivEntry) (acc : List PaperRef) (t : String),
      arxivIsDup acc t = true →
      ∀ q ∈ arxivLoop limit rs acc, q ∉ acc → lower50 q.title ≠ lower50 t) ∧
    ((search_academic_papers_node (initState (some "t") (some 3))
        (some [⟨some "p1", some "T1", some "u1", none⟩,
               ⟨some "p2", some "T2", none, some "1111.2222"⟩])
        (fun _ => none)).2 = [secondaryRequestSize 3 2] ∧
      secondaryRequestSize 3 2 = 2) := by
  refine ⟨?_, arxivLoop_stop, arxivLoop_length_le,
    fun limit r rs acc h1 h2 h3 => arxivLoop_accept limit r rs acc h1 h2 h3,
    arxivLoop_dup_reject, by decide⟩
  intro s es arxivRes htopic hlt
  unfold search_academic_papers_node
  rw [if_neg (by simp [htopic])]
  simp only [show (SEMANTIC_SCHOLAR_API_KEY = "YOUR_SEMANTIC_SCHOLAR_API_KEY") = False by
    simp [SEMANTIC_SCHOLAR_API_KEY], if_false]
  rw [if_pos hlt]
  cases arxivRes (secondaryRequestSize (s.paper_limit.getD 3)
      (ssCollect (s.paper_limit.getD 3) es []).length) with
  | none => split <;> rfl
  | some rs => split <;> rfl

/-- Witness for C8, conjunct 1, at the spec scenario: two linked primary
items and a paper limit of 3. -/
theorem discovery_secondary_provider_witness :
    (search_academic_papers_node (initState (some "t") (some 3))
        (some [⟨some "p1", some "T1", some "u1", none⟩,
               ⟨some "p2", some "T2", none, some "1111.2222"⟩])
        (fun _ => none)).2
      = [secondaryRequestSize 3
          (ssCollect 3 [⟨some "p1", some "T1", some "u1", none⟩,
                        ⟨some "p2", some "T2", none, some "1111.2222"⟩] []).length] :=
  discovery_secondary_provider.1 (initState (some "t") (some 3))
    [⟨some "p1", some "T1", some "u1", none⟩,
     ⟨some "p2", some "T2", none, some "1111.2222"⟩]
    (fun _ => none) (by decide) (by decide)

theorem search_error_shape (s : ResearchState) (a : Option (List SSEntry))
    (b : Nat → Option (List ArxivEntry)) :
    (search_academic_papers_node s a b).1.error = none ∨
    (search_academic_papers_node s a b).1.papers_to_process = some [] := by
  unfold search_academic_papers_node
  dsimp only
  repeat' split
  all_goals first | (right; rfl) | (left; rfl)

theorem dl_preserves_error (s : ResearchState) (acq : Nat → AcqOutcome) (e : String)
    (h : s.error = some e) : (download_and_parse_pdfs_node s acq).1.error = some e := by
  unfold download_and_parse_pdfs_node
  cases hp : s.papers_to_process.getD [] with
  | nil => simp [h]
  | cons p ps =>
    rcases h1 : downloadLoop acq 0 (p :: ps) with ⟨parsed, cnt, tr⟩
    simp only [h1]
    simp [h]

theorem dl_parsed_empty_of_papers_empty (s : ResearchState) (acq : Nat → AcqOutcome)
    (h : s.papers_to_process.getD [] = []) :
    (download_and_parse_pdfs_node s acq).1.parsed_papers = some [] := by
  unfold download_and_parse_pdfs_node
  rw [h]
  cases s.error <;> rfl

theorem dl_error_means_parsed_empty (s : ResearchState) (acq : Nat → AcqOutcome)
    (hs : s.error = none) :
    ∀ e, (download_and_parse_pdfs_node s acq).1.error = some e →
      (download_and_parse_pdfs_node s acq).1.parsed_papers.getD [] = [] := by
  intro e
  unfold download_and_parse_pdfs_node
  cases hp : s.papers_to_process.getD [] with
  | nil => intro _; simp [hs]
  | cons p ps =>
    rcases h1 : downloadLoop acq 0 (p :: ps) with ⟨parsed, cnt, tr⟩
    simp only [h1]
    intro hout
    by_cases hpe : parsed = []
    · simp [hpe]
    · simp [hpe, hs] at hout

theorem sum_preserves_error_of_parsed_empty (s : ResearchState)
    (cfg : Option String) (llm : Nat → GenResult) (e : String)
    (h : s.error = some e) (hp : s.parsed_papers.getD [] = []) :
    (summarize_papers_node s cfg llm).error = some e := by
  unfold summarize_papers_node
  rw [hp]
  simp [h]

theorem cmp_preserves_error (s : ResearchState) (o : CmpResult) (e : String)
    (h : s.error = some e) : ((compare_analyses_node s o).1).error = some e := by
  unfold compare_analyses_node
  cases ha : s.all_analyses.getD [] with
  | nil => simp [h]
  | cons x xs =>
    dsimp only
    rw [if_neg (by decide : ¬ GEMINI_API_KEY = "YOUR_GEMINI_API_KEY")]
    cases o <;> simp [h]

theorem gen_preserves_error (s : ResearchState) (render : Option String) (cwd : String)
    (e : String) (h : s.error = some e) :
    (generate_report_node s render cwd).error = some e := by
  unfold generate_report_node
  cases ha : s.all_analyses.getD [] with
  | nil => simp [h]
  | cons x xs => cases render <;> simp [h]

/-- Claim C1: first terminal error wins.  In every run, once a stage's
output carries an error, every later stage returns the very same error
string unchanged; equivalently, Acquisition, Analysis, Synthesis and
Assembly never replace a non-empty incoming error slot. -/
theorem error_carry_forward (t : Option String) (l : Option Nat) (o : Oracles) (e : String) :
    ((stateAfterSearch t l o).error = some e →
      (stateAfterDownload t l o).error = some e ∧
      (stateAfterSummarize t l o).error = some e ∧
      (stateAfterCompare t l o).error = some e ∧
      (stateAfterReport t l o).error = some e) ∧
    ((stateAfterDownload t l o).error = some e →
      (stateAfterSummarize t l o).error = some e ∧
      (stateAfterCompare t l o).error = some e ∧
      (stateAfterReport t l o).error = some e) ∧
    ((stateAfterSummarize t l o).error = some e →
      (stateAfterCompare t l o).error = some e ∧
      (stateAfterReport t l o).error = some e) ∧
    ((stateAfterCompare t l o).error = some e →
      (stateAfterReport t l o).error = some e) := by
  have h45 : (stateAfterCompare t l o).error = some e →
      (stateAfterReport t l o).error = some e := fun h =>
    gen_preserves_error _ o.render o.cwd e h
  have h34 : (stateAfterSummarize t l o).error = some e →
      (stateAfterCompare t l o).error = some e := fun h =>
    cmp_preserves_error _ o.cmp e h
  have h23 : (stateAfterDownload t l o).error = some e →
      (stateAfterSummarize t l o).error = some e := by
    intro h2
    have hparsed : (stateAfterDownload t l o).parsed_papers.getD [] = [] := by
      rcases search_error_shape (initState t l) o.ssRes o.arxivRes with h1 | h1
      · exact dl_error_means_parsed_empty _ o.acq h1 e h2
      · have := dl_parsed_empty_of_papers_empty (stateAfterSearch t l o) o.acq
          (by simp [stateAfterSearch, h1])
        simp [stateAfterDownload, this]
    exact sum_preserves_error_of_parsed_empty _ o.sumConfig o.sumLLM e h2 hparsed
  have h12 : (stateAfterSearch t l o).error = some e →
      (stateAfterDownload t l o).error = some e := fun h =>
    dl_preserves_error _ o.acq e h
  refine ⟨fun h1 => ?_, fun h2 => ?_, fun h3 => ⟨h34 h3, h45 (h34 h3)⟩, h45⟩
  · have h2 := h12 h1
    have h3 := h23 h2
    exact ⟨h2, h3, h34 h3, h45 (h34 h3)⟩
  · have h3 := h23 h2
    exact ⟨h3, h34 h3, h45 (h34 h3)⟩

/-- Witness for C1: a run with a falsy topic records "Topic missing" at
Discovery and every later stage returns it unchanged. -/
theorem error_carry_forward_witness :
    (stateAfterReport (some "") (some 3)
        ⟨none, fun _ => none, fun _ => AcqOutcome.fetchFail, none,
          fun _ => GenResult.empty, CmpResult.empty, none, "/app"⟩).error
      = some "Topic missing" :=
  ((error_carry_forward (some "") (some 3)
      ⟨none, fun _ => none, fun _ => AcqOutcome.fetchFail, none,
        fun _ => GenResult.empty, CmpResult.empty, none, "/app"⟩
      "Topic missing").1 (by decide)).2.2.2

/-- Claim C4 (amended): when Synthesis receives an empty analyses list it
never invokes the language model; if no error was recorded it returns the
"no data" placeholder in both fields and records an error; if an error was
already recorded it returns the empty string in both fields and propagates
the prior error unchanged. -/
theorem synthesis_empty_analyses (s : ResearchState) (o : CmpResult)
    (h : s.all_analyses.getD [] = []) :
    (compare_analyses_node s o).2 = 0 ∧
    (s.error = none →
      (compare_analyses_node s o).1.topic_overview = some "N/A - No papers analyzed." ∧
      (compare_analyses_node s o).1.comparison_result = some "N/A - No papers analyzed." ∧
      (compare_analyses_node s o).1.error = some "No summaries available") ∧
    (∀ e, s.error = some e →
      (compare_analyses_node s o).1.topic_overview = some "" ∧
      (compare_analyses_node s o).1.comparison_result = some "" ∧
      (compare_analyses_node s o).1.error = some e) := by
  unfold compare_analyses_node
  rw [h]
  refine ⟨?_, ?_, ?_⟩
  · cases s.error <;> rfl
  · intro hs; rw [hs]; exact ⟨rfl, rfl, rfl⟩
  · intro e hs; rw [hs]; exact ⟨rfl, rfl, rfl⟩

/-- Witness for the amended C4 at a state with empty analyses and a prior
error. -/
theorem synthesis_empty_analyses_witness :
    (compare_analyses_node
        ⟨some "t", some 3, some [], some [], some [], none, none, none, some "boom"⟩
        CmpResult.empty).1.topic_overview = some "" ∧
    (compare_analyses_node
        ⟨some "t", some 3, some [], some [], some [], none, none, none, some "boom"⟩
        CmpResult.empty).1.comparison_result = some "" ∧
    (compare_analyses_node
        ⟨some "t", some 3, some [], some [], some [], none, none, none, some "boom"⟩
        CmpResult.empty).1.error = some "boom" :=
  (synthesis_empty_analyses _ CmpResult.empty (by decide)).2.2 "boom" rfl

/-- Counterexample to C4 as stated: in a run whose topic is falsy, Synthesis
receives an empty analyses list with a prior error, and returns the empty
string — not the "no data" placeholder — in both fields. -/
theorem synthesis_empty_analyses_cex :
    (stateAfterSummarize (some "") (some 3)
        ⟨none, fun _ => none, fun _ => AcqOutcome.fetchFail, none,
          fun _ => GenResult.empty, CmpResult.empty, none, "/app"⟩).all_analyses.getD []
      = [] ∧
    (stateAfterCompare (some "") (some 3)
        ⟨none, fun _ => none, fun _ => AcqOutcome.fetchFail, none,
          fun _ => GenResult.empty, CmpResult.empty, none, "/app"⟩).topic_overview
      = some "" ∧
    (stateAfterCompare (some "") (some 3)
        ⟨none, fun _ => none, fun _ => AcqOutcome.fetchFail, none,
          fun _ => GenResult.empty, CmpResult.empty, none, "/app"⟩).comparison_result
      = some "" ∧
    (stateAfterCompare (some "") (some 3)
        ⟨none, fun _ => none, fun _ => AcqOutcome.fetchFail, none,
          fun _ => GenResult.empty, CmpResult.empty, none, "/app"⟩).topic_overview
      ≠ some "N/A - No papers analyzed." := by
  decide

/-- Claim C5 (amended): when Synthesis receives exactly one analysis, at
most one language-model request is made (the single combined request; no
separate comparison-specific request exists), a topic overview value is
always produced, and whenever the collaborator returns a usable text
response the comparison field equals the fixed "skipped" placeholder
regardless of the response text; when the response is blocked, empty, or
the call fails, the comparison field instead carries the corresponding
failure message. -/
theorem synthesis_single_analysis (s : ResearchState) (o : CmpResult) (a : Analysis)
    (h : s.all_analyses = some [a]) :
    (compare_analyses_node s o).2 ≤ 1 ∧
    (∀ g, o = CmpResult.text g →
      (compare_analyses_node s o).1.comparison_result = some comparisonSkippedText ∧
      (compare_analyses_node s o).1.topic_overview
        = some (parseOverviewComparison g 1).1) ∧
    (∀ r, o = CmpResult.blocked r →
      (compare_analyses_node s o).1.comparison_result
        = some ("Gemini request blocked (" ++ r ++ ")")) ∧
    (o = CmpResult.empty →
      (compare_analyses_node s o).1.comparison_result
        = some "Comparison failed: Empty response") ∧
    (∀ m, (o = CmpResult.exnBefore m ∨ o = CmpResult.exnAfter m) →
      (compare_analyses_node s o).1.comparison_result
        = some ("Comparison/Overview generation failed due to error: " ++ m)) ∧
    (compare_analyses_node s o).1.topic_overview.isSome = true := by
  unfold compare_analyses_node
  rw [h]
  refine ⟨?_, ?_, ?_, ?_, ?_, ?_⟩
  · cases o <;> dsimp only [Option.getD] <;> split <;> simp
  · intro g hg; subst hg; exact ⟨rfl, rfl⟩
  · intro r hr; subst hr; rfl
  · intro he; subst he; rfl
  · intro m hm
    rcases hm with hm | hm <;> subst hm <;> rfl
  · cases o <;> rfl

/-- Witness for the amended C5: one analysis and a usable text response
give the fixed "skipped" comparison text. -/
theorem synthesis_single_analysis_witness :
    (compare_analyses_node
        ⟨some "t", some 1, none, none, some [⟨"T", "N/A", "s", "m", "k"⟩],
          none, none, none, none⟩
        (CmpResult.text "whatever")).1.comparison_result
      = some comparisonSkippedText :=
  ((synthesis_single_analysis _ (CmpResult.text "whatever")
      ⟨"T", "N/A", "s", "m", "k"⟩ rfl).2.1 "whatever" rfl).1

/-- Counterexample to C5 as stated: in a run that analyzes exactly one
paper, a blocked collaborator response makes Synthesis return the blocked
message — not the fixed "skipped" placeholder — as the comparison field. -/
theorem synthesis_single_analysis_cex :
    ((stateAfterSummarize (some "topic") (some 1)
        ⟨some [⟨some "p1", some "T1", some "http://u", none⟩], fun _ => none,
          fun _ => AcqOutcome.extracted "body text", none,
          fun _ => GenResult.text "Summary: s Methodology: m Key Findings: k",
          CmpResult.blocked "SAFETY", none, "/app"⟩).all_analyses.getD []).length = 1 ∧
    (stateAfterCompare (some "topic") (some 1)
        ⟨some [⟨some "p1", some "T1", some "http://u", none⟩], fun _ => none,
          fun _ => AcqOutcome.extracted "body text", none,
          fun _ => GenResult.text "Summary: s Methodology: m Key Findings: k",
          CmpResult.blocked "SAFETY", none, "/app"⟩).comparison_result
      = some "Gemini request blocked (SAFETY)" ∧
    (stateAfterCompare (some "topic") (some 1)
        ⟨some [⟨some "p1", some "T1", some "http://u", none⟩], fun _ => none,
          fun _ => AcqOutcome.extracted "body text", none,
          fun _ => GenResult.text "Summary: s Methodology: m Key Findings: k",
          CmpResult.blocked "SAFETY", none, "/app"⟩).comparison_result
      ≠ some comparisonSkippedText := by
  decide

/-- Claim C6 (amended): when the collaborator's response contains both
section labels but the comparison label occurs before the overview label,
Synthesis (with two or more analyses) returns the EMPTY string as the
topic overview (the slice from after the overview label to the comparison
label is empty because its start exceeds its end), while the comparison
field receives the stripped remainder of the text after the comparison
label (which still contains the overview label); the two fields are
therefore not both non-empty. -/
theorem synthesis_reversed_labels (s : ResearchState) (g : String) (i j : Nat)
    (hn : 2 ≤ (s.all_analyses.getD []).length)
    (hov : pyFindS overviewMarker g = some i)
    (hcm : pyFindS comparisonMarker g = some j)
    (hlt : j < i) :
    (compare_analyses_node s (CmpResult.text g)).1.topic_overview = some "" ∧
    (compare_analyses_node s (CmpResult.text g)).1.comparison_result
      = some (pyStripS (pyDropS g (j + comparisonMarker.length))) := by
  unfold compare_analyses_node
  cases ha : s.all_analyses.getD [] with
  | nil => rw [ha] at hn; simp at hn
  | cons x xs =>
    rw [ha] at hn
    have hne1 : ¬ (x :: xs).length = 1 := by
      simp only [List.length_cons] at hn ⊢
      omega
    have hxs : xs ≠ [] := by
      cases xs with
      | nil => simp at hn
      | cons y ys => simp
    have hparse : parseOverviewComparison g (x :: xs).length
        = ("", pyStripS (pyDropS g (j + comparisonMarker.length))) := by
      unfold parseOverviewComparison
      rw [hov, hcm]
      have hz : j - (i + overviewMarker.length) = 0 :=
        Nat.sub_eq_zero_of_le (le_trans (le_of_lt hlt) (Nat.le_add_right i _))
      dsimp only
      rw [show pySliceS g (i + overviewMarker.length) j = "" from by
        unfold pySliceS; rw [hz]; rfl]
      rfl
    dsimp only
    rw [if_neg (by decide : ¬ GEMINI_API_KEY = "YOUR_GEMINI_API_KEY")]
    simp only [List.length_cons] at hparse
    simp [hparse, hxs, hne1]

/-- Witness for the amended C6 at a response whose comparison label
precedes its overview label. -/
theorem synthesis_reversed_labels_witness :
    (compare_analyses_node
        ⟨some "t", some 2, none, none,
          some [⟨"T1", "N/A", "s", "m", "k"⟩, ⟨"T2", "N/A", "s", "m", "k"⟩],
          none, none, none, none⟩
        (CmpResult.text
          "Detailed Comparative Analysis: X Topic Overview: Y")).1.topic_overview
      = some "" ∧
    (compare_analyses_node
        ⟨some "t", some 2, none, none,
          some [⟨"T1", "N/A", "s", "m", "k"⟩, ⟨"T2", "N/A", "s", "m", "k"⟩],
          none, none, none, none⟩
        (CmpResult.text
          "Detailed Comparative Analysis: X Topic Overview: Y")).1.comparison_result
      = some (pyStripS (pyDropS "Detailed Comparative Analysis: X Topic Overview: Y"
          (0 + comparisonMarker.length))) :=
  synthesis_reversed_labels _ _ 33 0 (by decide) (by decide) (by decide) (by decide)

/-- Counterexample to C6 as stated: in a run with two analyses whose
synthesis response contains both labels with the comparison label first,
the returned topic overview is the empty string, so the two produced
fields are not both non-empty. -/
theorem synthesis_reversed_labels_cex :
    ((stateAfterSummarize (some "topic") (some 2)
        ⟨some [⟨some "p1", some "T1", some "u1", none⟩,
               ⟨some "p2", some "Other paper", some "u2", none⟩],
          fun _ => none, fun _ => AcqOutcome.extracted "body", none,
          fun _ => GenResult.text "Summary: s Methodology: m Key Findings: k",
          CmpResult.text "Detailed Comparative Analysis: X Topic Overview: Y",
          none, "/app"⟩).all_analyses.getD []).length = 2 ∧
    pyFindS comparisonMarker "Detailed Comparative Analysis: X Topic Overview: Y"
      = some 0 ∧
    pyFindS overviewMarker "Detailed Comparative Analysis: X Topic Overview: Y"
      = some 33 ∧
    (stateAfterCompare (some "topic") (some 2)
        ⟨some [⟨some "p1", some "T1", some "u1", none⟩,
               ⟨some "p2", some "Other paper", some "u2", none⟩],
          fun _ => none, fun _ => AcqOutcome.extracted "body", none,
          fun _ => GenResult.text "Summary: s Methodology: m Key Findings: k",
          CmpResult.text "Detailed Comparative Analysis: X Topic Overview: Y",
          none, "/app"⟩).topic_overview = some "" := by
  decide

theorem splitFuel_nil (sep : List Char) (n : Nat) : splitFuel sep n [] = [[]] := by
  cases n <;> rfl

theorem replaceFuel_nil (sep repl : List Char) (n : Nat) :
    replaceFuel sep repl n [] = [] := by
  cases n <;> rfl

theorem noOccIn_all (sep l : List Char) (hsep : sep ≠ []) (h : NoOccIn sep l)
    (i : Nat) : ¬ sep.isPrefixOf (l.drop i) := by
  by_cases hi : i < l.length
  · exact h i hi
  · intro hp
    rw [List.drop_eq_nil_of_le (by omega)] at hp
    exact hsep (List.prefix_nil.mp (List.isPrefixOf_iff_prefix.mp hp))

theorem noOccBefore_append (sep u v : List Char) (k : Nat)
    (hk : k + sep.length ≤ u.length) (h : NoOccBefore sep u k) :
    NoOccBefore sep (u ++ v) k := by
  intro i hi hpre
  have hpre' : sep <+: (u ++ v).drop i := List.isPrefixOf_iff_prefix.mp hpre
  rw [List.drop_append_of_le_length (by omega : i ≤ u.length)] at hpre'
  have hlen : sep.length ≤ (u.drop i).length := by
    rw [List.length_drop]; omega
  have hu : sep <+: u.drop i := by
    rw [List.prefix_iff_eq_take] at hpre' ⊢
    rwa [List.take_append_of_le_length hlen] at hpre'
  exact h i hi (List.isPrefixOf_iff_prefix.mpr hu)

theorem splitFuel_irrel (sep : List Char) :
    ∀ (n : Nat) (s : List Char) (m : Nat), s.length ≤ n → s.length ≤ m →
      splitFuel sep n s = splitFuel sep m s := by
  intro n
  induction n with
  | zero =>
    intro s m hn _
    have hs : s = [] := List.eq_nil_of_length_eq_zero (Nat.le_zero.mp hn)
    subst hs
    simp [splitFuel_nil]
  | succ n ih =>
    intro s m hn hm
    cases s with
    | nil => simp [splitFuel_nil]
    | cons c cs =>
      cases m with
      | zero => simp at hm
      | succ m' =>
        simp only [splitFuel]
        by_cases hc : (sep.isPrefixOf (c :: cs) && !sep.isEmpty) = true
        · rw [if_pos hc, if_pos hc]
          have hsep1 : 1 ≤ sep.length := by
            cases sep with
            | nil => simp at hc
            | cons y ys => simp
          have hlen : ((c :: cs).drop sep.length).length ≤ n := by
            rw [List.length_drop]
            simp only [List.length_cons] at hn ⊢
            omega
          have hlen' : ((c :: cs).drop sep.length).length ≤ m' := by
            rw [List.length_drop]
            simp only [List.length_cons] at hm ⊢
            omega
          rw [ih _ m' hlen hlen']
        · rw [if_neg hc, if_neg hc]
          have hcs : cs.length ≤ n := by simp at hn; omega
          have hcs' : cs.length ≤ m' := by simp at hm; omega
          rw [ih cs m' hcs hcs']

theorem splitFuel_noOcc (sep : List Char) :
    ∀ (n : Nat) (s : List Char), s.length ≤ n →
      (∀ i, ¬ sep.isPrefixOf (s.drop i)) → splitFuel sep n s = [s] := by
  intro n
  induction n with
  | zero =>
    intro s hl _
    have hs : s = [] := List.eq_nil_of_length_eq_zero (Nat.le_zero.mp hl)
    subst hs
    simp [splitFuel_nil]
  | succ n ih =>
    intro s hl hno
    cases s with
    | nil => simp [splitFuel_nil]
    | cons c cs =>
      simp only [splitFuel]
      have h0 : sep.isPrefixOf (c :: cs) = false := by
        have := hno 0
        simp only [List.drop_zero] at this
        cases h : sep.isPrefixOf (c :: cs)
        · rfl
        · exact absurd h this
      rw [if_neg (by simp [h0])]
      rw [ih cs (by simp at hl; omega) (fun i => by
        have := hno (i + 1)
        simpa using this)]

theorem splitFuel_append (sep : List Char) (hsep : sep ≠ []) :
    ∀ (a r : List Char) (n : Nat),
      (a ++ sep ++ r).length ≤ n →
      NoOccBefore sep (a ++ sep ++ r) a.length →
      splitFuel sep n (a ++ sep ++ r) = a :: pySplit sep r := by
  intro a
  induction a with
  | nil =>
    intro r n hn hno
    simp only [List.nil_append] at hn hno ⊢
    have hsep1 : 1 ≤ sep.length := List.length_pos.mpr hsep
    cases n with
    | zero => rw [List.length_append] at hn; omega
    | succ n' =>
      cases hsepeq : sep with
      | nil => exact absurd hsepeq hsep
      | cons b bs =>
        subst hsepeq
        simp only [List.cons_append, List.append_eq, splitFuel]
        have hcond : ((b :: bs).isPrefixOf (b :: (bs ++ r)) && !(b :: bs).isEmpty) = true := by
          rw [show b :: (bs ++ r) = (b :: bs) ++ r from rfl]
          simp [List.isPrefixOf_iff_prefix, List.prefix_append]
        rw [if_pos hcond]
        congr 1
        rw [show b :: (bs ++ r) = (b :: bs) ++ r from rfl, List.drop_left]
        apply splitFuel_irrel
        · simp only [List.cons_append, List.length_cons, List.length_append] at hn
          omega
        · exact le_refl _
  | cons x a' ih =>
    intro r n hn hno
    cases n with
    | zero => simp at hn
    | succ n' =>
      simp only [List.cons_append, List.append_eq, splitFuel]
      have hnotpre : sep.isPrefixOf (x :: (a' ++ sep ++ r)) = false := by
        have h0 := hno 0 (by simp)
        simp only [List.drop_zero, List.cons_append] at h0
        cases h : sep.isPrefixOf (x :: (a' ++ sep ++ r))
        · rfl
        · exact absurd h h0
      have hcondF : ¬ ((sep.isPrefixOf (x :: (a' ++ sep ++ r)) && !sep.isEmpty) = true) := by
        rw [hnotpre]; simp
      rw [if_neg hcondF]
      have hshift : NoOccBefore sep (a' ++ sep ++ r) a'.length := by
        intro i hi
        have := hno (i + 1) (by simp; omega)
        simpa using this
      rw [ih r n' (by simp at hn ⊢; omega) hshift]

theorem replaceFuel_noOcc (sep : List Char) :
    ∀ (n : Nat) (s : List Char), s.length ≤ n →
      (∀ i, ¬ sep.isPrefixOf (s.drop i)) → replaceFuel sep [] n s = s := by
  intro n
  induction n with
  | zero =>
    intro s hl _
    have hs : s = [] := List.eq_nil_of_length_eq_zero (Nat.le_zero.mp hl)
    subst hs
    simp [replaceFuel_nil]
  | succ n ih =>
    intro s hl hno
    cases s with
    | nil => simp [replaceFuel_nil]
    | cons c cs =>
      simp only [replaceFuel]
      have h0 : sep.isPrefixOf (c :: cs) = false := by
        have := hno 0
        simp only [List.drop_zero] at this
        cases h : sep.isPrefixOf (c :: cs)
        · rfl
        · exact absurd h this
      rw [if_neg (by simp [h0])]
      rw [ih cs (by simp at hl; omega) (fun i => by
        have := hno (i + 1)
        simpa using this)]

theorem replaceFuel_eat (sep : List Char) (hsep : sep ≠ []) :
    ∀ (a : List Char) (n : Nat), (sep ++ a).length ≤ n →
      (∀ i, ¬ sep.isPrefixOf (a.drop i)) →
      replaceFuel sep [] n (sep ++ a) = a := by
  intro a n hn hno
  have hsep1 : 1 ≤ sep.length := List.length_pos.mpr hsep
  cases n with
  | zero => rw [List.length_append] at hn; omega
  | succ n' =>
    cases hsepeq : sep with
    | nil => exact absurd hsepeq hsep
    | cons b bs =>
      subst hsepeq
      simp only [List.cons_append, List.append_eq, replaceFuel]
      have hcond : ((b :: bs).isPrefixOf (b :: (bs ++ a)) && !(b :: bs).isEmpty) = true := by
        rw [show b :: (bs ++ a) = (b :: bs) ++ a from rfl]
        simp [List.isPrefixOf_iff_prefix, List.prefix_append]
      rw [if_pos hcond]
      rw [show b :: (bs ++ a) = (b :: bs) ++ a from rfl, List.drop_left]
      rw [List.nil_append]
      apply replaceFuel_noOcc
      · simp only [List.cons_append, List.length_cons, List.length_append] at hn
        omega
      · exact hno

/-- `pySplit` on `A ++ sep ++ B` where the first `sep` occurrence is exactly
at position `A.length` and `sep` does not occur in `B`. -/
theorem pySplit_three (sep A B : List Char) (hsep : sep ≠ [])
    (h1 : NoOccBefore sep (A ++ sep) A.length) (h2 : NoOccIn sep B) :
    pySplit sep (A ++ sep ++ B) = [A, B] := by
  have hext : NoOccBefore sep ((A ++ sep) ++ B) A.length :=
    noOccBefore_append sep (A ++ sep) B A.length (by simp) h1
  unfold pySplit
  rw [splitFuel_append sep hsep A B _ (le_refl _) hext]
  rw [show pySplit sep B = [B] from by
    unfold pySplit
    exact splitFuel_noOcc sep _ B (le_refl _) (noOccIn_all sep B hsep h2)]

/-- Claim C7: the per-item Analysis parser slices the response by the
literal label substrings in label order.  Whenever the labels occur exactly
where the labelled layout puts them (no stray occurrence inside the
sections), the parse of `"Summary:" ++ a ++ "Methodology:" ++ b ++
"Key Findings:" ++ c` is the stripped sections `a`, `b`, `c` with the
labels removed; in particular
`"Summary: A. Methodology: B. Key Findings: C."` parses to
`("A.", "B.", "C.")`. -/
theorem analysis_label_slicing :
    (∀ a b c : List Char,
      NoOccBefore "Methodology:".data
        ("Summary:".data ++ a ++ "Methodology:".data)
        ("Summary:".data ++ a).length →
      NoOccIn "Methodology:".data b →
      NoOccBefore "Key Findings:".data
        ("Summary:".data ++ a ++ "Methodology:".data ++ b ++ "Key Findings:".data)
        ("Summary:".data ++ a ++ "Methodology:".data ++ b).length →
      NoOccIn "Key Findings:".data c →
      NoOccIn "Summary:".data a →
      parseSummaryResponse
          ⟨"Summary:".data ++ a ++ "Methodology:".data ++ b
            ++ "Key Findings:".data ++ c⟩
        = (⟨pyStrip a⟩, ⟨pyStrip b⟩, ⟨pyStrip c⟩)) ∧
    parseSummaryResponse "Summary: A. Methodology: B. Key Findings: C."
      = ("A.", "B.", "C.") := by
  refine ⟨?_, by decide⟩
  intro a b c hM1 hMb hK1 hKc hSa
  have hsplitK := pySplit_three "Key Findings:".data
    ("Summary:".data ++ a ++ "Methodology:".data ++ b) c (by decide) hK1 hKc
  have hsplitM2 := pySplit_three "Methodology:".data
    ("Summary:".data ++ a) b (by decide) hM1 hMb
  have hextM : NoOccBefore "Methodology:".data
      (("Summary:".data ++ a ++ "Methodology:".data)
        ++ (b ++ "Key Findings:".data ++ c))
      ("Summary:".data ++ a).length :=
    noOccBefore_append _ _ _ _ (by simp only [List.length_append]; omega) hM1
  have hsplitM1 : pySplit "Methodology:".data
      (("Summary:".data ++ a ++ "Methodology:".data)
        ++ (b ++ "Key Findings:".data ++ c))
      = ("Summary:".data ++ a)
        :: pySplit "Methodology:".data (b ++ "Key Findings:".data ++ c) := by
    unfold pySplit
    exact splitFuel_append _ (by decide) _ _ _ (le_refl _) hextM
  have hreplace : pyReplace "Summary:".data [] ("Summary:".data ++ a) = a := by
    unfold pyReplace
    exact replaceFuel_eat _ (by decide) a _ (le_refl _)
      (noOccIn_all _ a (by decide) hSa)
  unfold parseSummaryResponse pySplitS pyReplaceS pyStripS
  dsimp only
  simp only [List.append_assoc] at hsplitK hsplitM2 hsplitM1 hreplace ⊢
  rw [hsplitK, hsplitM1]
  dsimp only [List.map, List.headD, List.getLastD]
  rw [hreplace, hsplitM2]
  simp

/-- Witness for C7, conjunct 1, at the spec's scenario sections. -/
theorem analysis_label_slicing_witness :
    parseSummaryResponse
        ⟨"Summary:".data ++ " A. ".data ++ "Methodology:".data ++ " B. ".data
          ++ "Key Findings:".data ++ " C.".data⟩
      = (⟨pyStrip " A. ".data⟩, ⟨pyStrip " B. ".data⟩, ⟨pyStrip " C.".data⟩) :=
  analysis_label_slicing.1 " A. ".data " B. ".data " C.".data
    (by decide) (by decide) (by decide) (by decide) (by decide)
